import Mathlib

/-!
Formal model of the go-drive schema-provisioning core.

This file is a shallow embedding, in Lean 4, of the migration engine and the
access-control provisioning layer of the go-drive repository:

* `internal/database` connection manager (`Connection.WithTransaction`),
* `internal/database` versioned migration engine (`Migrator.Apply`,
  `Migrator.applyMigration`, `Migrator.GetAppliedMigrations`),
* `internal/postgres/rls.go` access-control manager (`RLSManager.*`,
  `SetupServiceRLS`),
* `internal/database` GORM orchestration (`AutoMigrate`,
  `CreateServiceRoles`) and the `cmd/migrate` CLI migrate action.

Database nondeterminism (I/O errors injected by the driver or the server) is
modelled by explicit environment records carrying, for each statement the code
can issue, an optional error.  Database state is modelled explicitly and
threaded through every operation.  Transactions keep the usual semantics:
changes made by the transaction body persist exactly when the transaction
commits; a rollback (or a failed commit) restores the pre-transaction state.
-/

/-! ## Byte-lexicographic string order

Go compares `string` values with `<` byte-lexicographically
(`migrations[i].Version < migrations[j].Version` in `Migrator.Apply`).
UTF-8 byte order agrees with code-point order, so we model the comparison by
code-point-lexicographic comparison of the character lists underlying the
Lean strings.  `charListLe` is the reflexive (`≤`) version of that order,
written as a structurally recursive boolean function so that it evaluates on
concrete inputs.
-/

def charListLe : List Char → List Char → Bool
  | [], _ => true
  | _ :: _, [] => false
  | a :: as, b :: bs =>
    if a.toNat < b.toNat then true
    else if b.toNat < a.toNat then false
    else charListLe as bs

/-- The relation `verLe a b` models the Go comparison `a <= b` (that is, `!(b < a)`) on version strings. -/
def verLe (a b : String) : Prop := charListLe a.data b.data = true

instance (a b : String) : Decidable (verLe a b) :=
  inferInstanceAs (Decidable (_ = true))

/-- The relation `verLt a b`: version `a` is strictly smaller than version `b`. -/
def verLt (a b : String) : Prop := verLe a b ∧ a ≠ b

instance (a b : String) : Decidable (verLt a b) :=
  inferInstanceAs (Decidable (_ ∧ _))

theorem charListLe_total : ∀ as bs, charListLe as bs = true ∨ charListLe bs as = true
  | [], _ => Or.inl rfl
  | _ :: _, [] => Or.inr rfl
  | a :: as, b :: bs => by
    rcases Nat.lt_trichotomy a.toNat b.toNat with h | h | h
    · left; simp [charListLe, h]
    · have h1 : ¬ a.toNat < b.toNat := by omega
      have h2 : ¬ b.toNat < a.toNat := by omega
      rcases charListLe_total as bs with ih | ih
      · left; simp [charListLe, h1, h2, ih]
      · right; simp [charListLe, h1, h2, ih]
    · right; simp [charListLe, h]

theorem charListLe_trans : ∀ as bs cs, charListLe as bs = true → charListLe bs cs = true →
    charListLe as cs = true
  | [], _, _, _, _ => rfl
  | a :: as, [], _, h1, _ => by simp [charListLe] at h1
  | _ :: _, _ :: _, [], _, h2 => by simp [charListLe] at h2
  | a :: as, b :: bs, c :: cs, h1, h2 => by
    simp only [charListLe] at h1 h2 ⊢
    rcases Nat.lt_trichotomy a.toNat b.toNat with hab | hab | hab
    · rcases Nat.lt_trichotomy b.toNat c.toNat with hbc | hbc | hbc
      · rw [if_pos (by omega)]
      · rw [if_pos (by omega)]
      · rw [if_neg (by omega), if_pos hbc] at h2
        exact absurd h2 (by simp)
    · rcases Nat.lt_trichotomy b.toNat c.toNat with hbc | hbc | hbc
      · rw [if_pos (by omega)]
      · rw [if_neg (by omega), if_neg (by omega)] at h1
        rw [if_neg (by omega), if_neg (by omega)] at h2
        rw [if_neg (by omega), if_neg (by omega)]
        exact charListLe_trans as bs cs h1 h2
      · rw [if_neg (by omega), if_pos hbc] at h2
        exact absurd h2 (by simp)
    · rw [if_neg (by omega), if_pos hab] at h1
      exact absurd h1 (by simp)

theorem verLe_total (a b : String) : verLe a b ∨ verLe b a := charListLe_total a.data b.data

theorem verLe_trans {a b c : String} (h1 : verLe a b) (h2 : verLe b c) : verLe a c :=
  charListLe_trans a.data b.data c.data h1 h2

/-! ## Data model of the migration engine

From `internal/database` (migrations file): `Migration`, `MigrationRecord`,
and the persistent database state the Migrator touches.  The abstract schema
is modelled as the list of schema-change statements successfully executed and
committed, in order; the ledger is the `schema_migrations` table, which has
`version` as PRIMARY KEY.
-/

/-- Go struct `Migration`: a declared migration. -/
structure Migration where
  Version : String
  Description : String
  SQL : String
deriving DecidableEq, Repr

/-- Go struct `MigrationRecord`: one row of `schema_migrations`.
`AppliedAt` abstracts the `time.Time` timestamp as a natural number. -/
structure MigrationRecord where
  Version : String
  AppliedAt : Nat
  Description : String
deriving DecidableEq, Repr

/-- The database state visible to the migration engine. -/
structure DBState where
  /-- Schema-change statements executed and committed, in order. -/
  schema : List String
  /-- Rows of `schema_migrations`, in insertion order. -/
  ledger : List MigrationRecord
deriving DecidableEq, Repr

/-- The versions currently present in `schema_migrations`. -/
def DBState.ledgerVersions (st : DBState) : List String := st.ledger.map (·.Version)

/-- Relation used to sort migrations: the Go `sort.Slice` comparison
`migrations[i].Version < migrations[j].Version` induces this total preorder. -/
def migLe (a b : Migration) : Prop := verLe a.Version b.Version

instance : DecidableRel migLe := fun a b => inferInstanceAs (Decidable (verLe a.Version b.Version))

instance : IsTotal Migration migLe := ⟨fun a b => verLe_total a.Version b.Version⟩

instance : IsTrans Migration migLe := ⟨fun _ _ _ h h2 => verLe_trans h h2⟩

/-- Relation used by `ORDER BY version` over `schema_migrations` rows. -/
def recLe (a b : MigrationRecord) : Prop := verLe a.Version b.Version

instance : DecidableRel recLe := fun a b => inferInstanceAs (Decidable (verLe a.Version b.Version))

instance : IsTotal MigrationRecord recLe := ⟨fun a b => verLe_total a.Version b.Version⟩

instance : IsTrans MigrationRecord recLe := ⟨fun _ _ _ h h2 => verLe_trans h h2⟩

/-- Model of `sort.Slice(migrations, ...Version < ...Version)` in
`Migrator.Apply`: a sort of the list by ascending version. -/
def sortMigrations (l : List Migration) : List Migration := l.insertionSort migLe

/-- Model of `ORDER BY version` in `Migrator.GetAppliedMigrations`. -/
def sortRecords (l : List MigrationRecord) : List MigrationRecord := l.insertionSort recLe

/-! ## Connection manager: `Connection.WithTransaction`

From `internal/database` (connection file, lines 259–284):

```go
func (c *Connection) WithTransaction(ctx context.Context, fn func(*sql.Tx) error) error {
    tx, err := c.DB.BeginTx(ctx, nil)
    if err != nil { return fmt.Errorf("failed to begin transaction: %w", err) }
    defer func() {
        if p := recover(); p != nil { _ = tx.Rollback(); panic(p) }
    }()
    if err := fn(tx); err != nil {
        if rbErr := tx.Rollback(); rbErr != nil {
            return fmt.Errorf("transaction error: %v, rollback error: %w", err, rbErr)
        }
        return err
    }
    if err := tx.Commit(); err != nil {
        return fmt.Errorf("failed to commit transaction: %w", err)
    }
    return nil
}
```

The transaction body `fn` is modelled as a function from the snapshot state to
one of: a normal return carrying the state as mutated inside the transaction,
an error return, or a panic.  The environment `TxEnv` injects the possible
driver failures of `BeginTx`, `Rollback` and `Commit`.
-/

/-- Outcome of a transaction body `fn`. -/
inductive FnOut where
  | ok (st : DBState)
  | err (e : String)
  | panic (p : String)
deriving DecidableEq, Repr

/-- Transaction verbs actually issued to the database. -/
inductive TxAction where
  | committed
  | rolledBack
deriving DecidableEq, Repr

/-- How a `WithTransaction` call terminates: a normal return (with the
resulting error value and the resulting database state), or a propagated
panic (after rollback, with the unchanged database state). -/
inductive TxOut where
  | ret (err : Option String) (st : DBState)
  | panicked (p : String) (st : DBState)
deriving DecidableEq, Repr

/-- Driver-level failures injected into one `WithTransaction` call. -/
structure TxEnv where
  beginErr : Option String
  rollbackErr : Option String
  commitErr : Option String
deriving DecidableEq, Repr

/-- A `TxEnv` in which begin, rollback and commit all succeed. -/
def cleanTxEnv : TxEnv := ⟨none, none, none⟩

namespace Connection

/-- Model of `Connection.WithTransaction`.  Returns the call outcome together
with the list of transaction verbs issued.  A rollback — and a failed
commit — restores the pre-transaction state `st`; only a successful commit
publishes the state produced by `fn`. -/
def WithTransaction (env : TxEnv) (st : DBState) (fn : DBState → FnOut) :
    TxOut × List TxAction :=
  match env.beginErr with
  | some e => (.ret (some ("failed to begin transaction: " ++ e)) st, [])
  | none =>
    match fn st with
    | .panic p => (.panicked p st, [.rolledBack])
    | .err e =>
      match env.rollbackErr with
      | some rb =>
        (.ret (some ("transaction error: " ++ e ++ ", rollback error: " ++ rb)) st,
         [.rolledBack])
      | none => (.ret (some e) st, [.rolledBack])
    | .ok st' =>
      match env.commitErr with
      | some ce => (.ret (some ("failed to commit transaction: " ++ ce)) st, [.committed])
      | none => (.ret none st', [.committed])

end Connection

/-! ## The versioned migration engine (`Migrator`) -/

/-- Postgres error text for a violated `schema_migrations` primary key. -/
def pgDuplicateKeyMsg : String :=
  "duplicate key value violates unique constraint \"schema_migrations_pkey\""

/-- Environment of one `Migrator` run: injected failures for
`ensureMigrationsTable`, for each schema-change body (keyed by its SQL text),
for each ledger `INSERT` (keyed by the version; primary-key violations are
modelled separately and unconditionally), the per-migration transaction
environment, and the timestamp `time.Now()` used for `applied_at`. -/
structure MigEnv where
  ensureErr : Option String
  sqlErr : String → Option String
  insErr : String → Option String
  txEnv : String → TxEnv
  now : Nat

/-- A `MigEnv` in which every database operation succeeds. -/
def cleanMigEnv : MigEnv :=
  { ensureErr := none, sqlErr := fun _ => none, insErr := fun _ => none,
    txEnv := fun _ => cleanTxEnv, now := 0 }

namespace Migrator

/-- The transaction body of `Migrator.applyMigration` (Go lines 569–586):
execute the migration SQL, then `INSERT` the ledger row into
`schema_migrations`.  The insert fails on a duplicate `version` (primary
key) or on an injected driver error. -/
def migrationFn (env : MigEnv) (mig : Migration) (st : DBState) : FnOut :=
  match env.sqlErr mig.SQL with
  | some e => .err ("failed to execute migration SQL: " ++ e)
  | none =>
    if st.ledgerVersions.contains mig.Version then
      .err ("failed to record migration: " ++ pgDuplicateKeyMsg)
    else
      match env.insErr mig.Version with
      | some e => .err ("failed to record migration: " ++ e)
      | none =>
        .ok { schema := st.schema ++ [mig.SQL],
              ledger := st.ledger ++ [⟨mig.Version, env.now, mig.Description⟩] }

/-- Model of `Migrator.applyMigration`: run `migrationFn` under
`Connection.WithTransaction`.  The body never panics, so the `panicked`
branch is dead code (`applyMigration_run` below). -/
def applyMigration (env : MigEnv) (mig : Migration) (st : DBState) :
    Option String × DBState :=
  match Connection.WithTransaction (env.txEnv mig.Version) st (migrationFn env mig) with
  | (.ret e st', _) => (e, st')
  | (.panicked p st', _) => (some p, st')

end Migrator

namespace Migrator

/-! ### `Migrator.GetAppliedMigrations`

Go (lines 590–613) queries
`SELECT version, applied_at, description FROM schema_migrations ORDER BY version`,
then iterates `rows.Next()`, scanning each row; it returns on the first scan
error, and after the loop returns the accumulated records with a `nil` error —
`rows.Err()` is never consulted, so a row stream cut short by an iteration
error is indistinguishable from a complete one.

`RowsEnv` describes what the driver delivers for the query: the full ordered
result set, a query error, a scan error at row index `i`, or an iteration
error that terminates the stream after `i` rows were delivered.
-/

/-- Driver behaviour for one `QueryContext` + `rows.Next()/Scan` loop. -/
inductive RowsEnv where
  /-- The full ordered result set is delivered and every scan succeeds. -/
  | ok
  /-- The initial query fails. -/
  | queryErr (e : String)
  /-- Scanning the row at index `i` (0-based) fails. -/
  | scanErr (i : Nat) (e : String)
  /-- The stream terminates after delivering `i` rows; `rows.Err()` would
  report `e`, but the code never reads it. -/
  | iterErr (i : Nat) (e : String)
deriving DecidableEq, Repr

/-- Model of `Migrator.GetAppliedMigrations`, as a function of the driver
behaviour and of the true contents of `schema_migrations`. -/
def GetAppliedMigrations (renv : RowsEnv) (ledger : List MigrationRecord) :
    Except String (List MigrationRecord) :=
  match renv with
  | .queryErr e => .error ("failed to query migrations: " ++ e)
  | .ok => .ok (sortRecords ledger)
  | .scanErr i e =>
    if i < (sortRecords ledger).length then
      .error ("failed to scan migration record: " ++ e)
    else
      .ok (sortRecords ledger)
  | .iterErr i _ => .ok ((sortRecords ledger).take i)

/-! ### `Migrator.Apply`

Go (lines 528–565): ensure the ledger table exists, load the applied
migrations, build the applied-version set, sort the input slice by version,
then iterate it, skipping applied versions and applying the rest via
`applyMigration`; stop at the first failure with
`failed to apply migration <version>: <cause>`.
-/

/-- The iteration of `Migrator.Apply` over the sorted migration list.
Returns the error value of the run, the resulting database state, and the
list of versions applied during the run, in application order (the log of
`Applied migration: ...` events). -/
def applyLoop (env : MigEnv) (appliedVersions : List String) :
    List Migration → DBState → Option String × DBState × List String
  | [], st => (none, st, [])
  | mig :: rest, st =>
    if appliedVersions.contains mig.Version then
      applyLoop env appliedVersions rest st
    else
      match applyMigration env mig st with
      | (none, st') =>
        let r := applyLoop env appliedVersions rest st'
        (r.1, r.2.1, mig.Version :: r.2.2)
      | (some e, st') =>
        (some ("failed to apply migration " ++ mig.Version ++ ": " ++ e), st', [])

/-- Model of `Migrator.Apply`. -/
def Apply (env : MigEnv) (renv : RowsEnv) (migrations : List Migration)
    (st : DBState) : Option String × DBState × List String :=
  match env.ensureErr with
  | some e => (some ("failed to create migrations table: " ++ e), st, [])
  | none =>
    match GetAppliedMigrations renv st.ledger with
    | .error e => (some e, st, [])
    | .ok applied =>
      applyLoop env (applied.map (·.Version)) (sortMigrations migrations) st

/-- The migrations of `migs` that a run of `Apply` over state `st` with an
accurate applied-set snapshot treats as pending, in the order the loop
processes them. -/
def pendingOf (migs : List Migration) (ledger : List MigrationRecord) : List Migration :=
  (sortMigrations migs).filter
    (fun m => !(((sortRecords ledger).map (·.Version)).contains m.Version))

end Migrator

/-- Predicate `migOk env m`: the environment lets migration `m` go through — its
schema-change body executes, its ledger insert encounters no driver error,
and its transaction begins and commits. -/
def migOk (env : MigEnv) (m : Migration) : Prop :=
  env.sqlErr m.SQL = none ∧ env.insErr m.Version = none ∧
  (env.txEnv m.Version).beginErr = none ∧ (env.txEnv m.Version).commitErr = none

/-- Predicate `migFails env m`: the body of `m` fails to execute, or its ledger insert
fails with a driver error. -/
def migFails (env : MigEnv) (m : Migration) : Prop :=
  (env.sqlErr m.SQL).isSome ∨ (env.insErr m.Version).isSome

instance (env : MigEnv) (m : Migration) : Decidable (migOk env m) :=
  inferInstanceAs (Decidable (_ ∧ _ ∧ _ ∧ _))

instance (env : MigEnv) (m : Migration) : Decidable (migFails env m) :=
  inferInstanceAs (Decidable (_ ∨ _))

/-- The `schema_migrations` row inserted for migration `m`. -/
def appliedRecord (env : MigEnv) (m : Migration) : MigrationRecord :=
  ⟨m.Version, env.now, m.Description⟩

/-! ## Access-control manager (`internal/postgres/rls.go`)

Each operation issues SQL statements through `db.ExecContext` in autocommit
mode: effects of statements that succeeded persist even if a later statement
of the same operation fails.  `PgState` tracks the access-control state
plus the log `stmts` of every statement issued to the database, in order.
-/

/-- Go struct `PolicyConfig` (rls.go lines 40–47). -/
structure PolicyConfig where
  Name : String
  Table : String
  Command : String
  Role : String
  Using : String
  WithCheck : String
deriving DecidableEq, Repr

/-- A database role: name, password, and whether it can log in. -/
structure RoleRec where
  name : String
  password : String
  login : Bool
deriving DecidableEq, Repr

/-- Database state visible to the access-control layer. -/
structure PgState where
  /-- Tables with row-level security enabled. -/
  rlsEnabled : List String
  /-- Policies created, in creation order. -/
  policies : List PolicyConfig
  /-- Existing roles. -/
  roles : List RoleRec
  /-- Granted privileges, as (privilege, table, role) triples. -/
  grants : List (String × String × String)
  /-- Every statement issued to the database, in order. -/
  stmts : List String
deriving DecidableEq, Repr

/-- Injected driver/server failures for the access-control layer:
`execErr` is keyed by the full statement text handed to `ExecContext`;
`roleCheckErr` is the outcome of the `SELECT EXISTS(... pg_roles ...)`
existence probe of `CreateServiceRole`, keyed by the role name. -/
structure ExecEnv where
  execErr : String → Option String
  roleCheckErr : String → Option String

/-- An `ExecEnv` in which every statement succeeds. -/
def cleanExecEnv : ExecEnv := ⟨fun _ => none, fun _ => none⟩

/-- The statement built by `RLSManager.EnableRLS`. -/
def enableRLSQuery (tableName : String) : String :=
  "ALTER TABLE " ++ tableName ++ " ENABLE ROW LEVEL SECURITY"

/-- The statement built by `RLSManager.CreatePolicy`. -/
def policyQuery (cfg : PolicyConfig) : String :=
  let base := "CREATE POLICY " ++ cfg.Name ++ " ON " ++ cfg.Table ++ " FOR " ++
    cfg.Command ++ " TO " ++ cfg.Role ++ " USING (" ++ cfg.Using ++ ")"
  if cfg.WithCheck ≠ "" then base ++ " WITH CHECK (" ++ cfg.WithCheck ++ ")" else base

/-- The statement built by `RLSManager.CreateServiceRole` when the role is
absent (the embedded password is single-quoted in the SQL text). -/
def createRoleQuery (roleName password : String) : String :=
  "CREATE ROLE " ++ roleName ++ " WITH LOGIN PASSWORD \x27" ++ password ++ "\x27"

/-- The statement built by `RLSManager.GrantTablePermissions` for one
privilege. -/
def grantQuery (perm tableName roleName : String) : String :=
  "GRANT " ++ perm ++ " ON " ++ tableName ++ " TO " ++ roleName

namespace RLSManager

/-- Model of `RLSManager.EnableRLS` (rls.go lines 20–27). -/
def EnableRLS (env : ExecEnv) (st : PgState) (tableName : String) :
    Option String × PgState :=
  let query := enableRLSQuery tableName
  let st' := { st with stmts := st.stmts ++ [query] }
  match env.execErr query with
  | some e => (some ("failed to enable RLS on " ++ tableName ++ ": " ++ e), st')
  | none => (none, { st' with rlsEnabled := st'.rlsEnabled ++ [tableName] })

/-- Model of `RLSManager.CreatePolicy` (rls.go lines 50–65). -/
def CreatePolicy (env : ExecEnv) (st : PgState) (cfg : PolicyConfig) :
    Option String × PgState :=
  let query := policyQuery cfg
  let st' := { st with stmts := st.stmts ++ [query] }
  match env.execErr query with
  | some e => (some ("failed to create policy " ++ cfg.Name ++ ": " ++ e), st')
  | none => (none, { st' with policies := st'.policies ++ [cfg] })

/-- Model of `RLSManager.CreateServiceRole` (rls.go lines 78–98): probe
`pg_roles` for the name; return `nil` at once if the role exists; otherwise
issue `CREATE ROLE ... WITH LOGIN PASSWORD ...`. -/
def CreateServiceRole (env : ExecEnv) (st : PgState) (roleName password : String) :
    Option String × PgState :=
  match env.roleCheckErr roleName with
  | some e => (some ("failed to check if role exists: " ++ e), st)
  | none =>
    if st.roles.any (fun r => r.name == roleName) then (none, st)
    else
      let query := createRoleQuery roleName password
      let st' := { st with stmts := st.stmts ++ [query] }
      match env.execErr query with
      | some e => (some ("failed to create role " ++ roleName ++ ": " ++ e), st')
      | none => (none, { st' with roles := st'.roles ++ [⟨roleName, password, true⟩] })

/-- Model of `RLSManager.GrantTablePermissions` (rls.go lines 101–110):
one `GRANT` statement per privilege, in list order, stopping at the first
failure. -/
def GrantTablePermissions (env : ExecEnv) (tableName roleName : String) :
    List String → PgState → Option String × PgState
  | [], st => (none, st)
  | perm :: rest, st =>
    let query := grantQuery perm tableName roleName
    let st' := { st with stmts := st.stmts ++ [query] }
    match env.execErr query with
    | some e =>
      (some ("failed to grant " ++ perm ++ " on " ++ tableName ++ " to " ++
        roleName ++ ": " ++ e), st')
    | none =>
      GrantTablePermissions env tableName roleName rest
        { st' with grants := st'.grants ++ [(perm, tableName, roleName)] }

end RLSManager

/-- The full-access policy built by `SetupServiceRLS` (rls.go lines 136–144). -/
def fullAccessPolicy (serviceName tableName : String) : PolicyConfig :=
  { Name := serviceName ++ "_all_" ++ tableName, Table := tableName,
    Command := "ALL", Role := serviceName, Using := "true", WithCheck := "" }

/-- The read-only policy built by `SetupServiceRLS` (rls.go lines 145–154). -/
def readOnlyPolicy (serviceName tableName : String) : PolicyConfig :=
  { Name := serviceName ++ "_select_" ++ tableName, Table := tableName,
    Command := "SELECT", Role := serviceName, Using := "true", WithCheck := "" }

/-- Model of `SetupServiceRLS` (rls.go lines 126–157): enable RLS on the
table, then create the single policy selected by `fullAccess`. -/
def SetupServiceRLS (env : ExecEnv) (st : PgState) (serviceName tableName : String)
    (fullAccess : Bool) : Option String × PgState :=
  match RLSManager.EnableRLS env st tableName with
  | (some e, st') => (some e, st')
  | (none, st') =>
    let policy :=
      if fullAccess then fullAccessPolicy serviceName tableName
      else readOnlyPolicy serviceName tableName
    RLSManager.CreatePolicy env st' policy

/-! ## GORM orchestration (`internal/database`, migrations-GORM file) and the
`cmd/migrate` CLI

`AutoMigrate` (Go lines 315–344) and `addCustomConstraints` (347–410) issue a
fixed sequence of steps through `gorm.DB.Exec` / `gorm.DB.AutoMigrate`; the
`cmd/migrate/main.go` `migrate` action (lines 44–50) consists of exactly one
call to `AutoMigrate`.  Each step is modelled structurally, carrying its
parameters; the constructor names record the guard built into the statement
text (`IF NOT EXISTS`, `CREATE OR REPLACE`, `DROP TRIGGER IF EXISTS` +
`CREATE TRIGGER`).  The extra constructor `runVersionedMigrator` stands for a
run of the versioned `Migrator` over a declared migration set; it is part of
the step vocabulary so that the specification-level description of the
migrate action can be stated against the same type.
-/

/-- One step issued by the GORM orchestration layer. -/
inductive GStep where
  /-- Statement `CREATE EXTENSION IF NOT EXISTS "<name>"`. -/
  | createExtensionIfNotExists (name : String)
  /-- Call `db.AutoMigrate(&domain.User{}, &domain.Folder{}, &domain.File{})`:
  GORM structural auto-migration of the named models. -/
  | gormAutoMigrateModels (models : List String)
  /-- Statement `DO $$ ... IF NOT EXISTS (SELECT 1 FROM pg_constraint WHERE conname =
  <conname>) THEN ALTER TABLE <table> ADD CONSTRAINT <conname> CHECK (...)
  ... $$`. -/
  | doGuardedAddConstraint (conname tableName : String)
  /-- Statement `CREATE OR REPLACE FUNCTION <name>() ...`. -/
  | createOrReplaceFunction (name : String)
  /-- Statements `DROP TRIGGER IF EXISTS <trigger> ON <table>; CREATE TRIGGER <trigger>
  BEFORE UPDATE ON <table> ...`. -/
  | dropTriggerIfExistsThenCreate (trigger tableName : String)
  /-- A run of the versioned `Migrator` (`Migrator.Apply`) over the declared
  migration set.  Never emitted by the code in this repository; present for
  comparison with the specification. -/
  | runVersionedMigrator
deriving DecidableEq, Repr

/-- Injected failures for GORM-issued steps. -/
structure GormEnv where
  stepErr : GStep → Option String

/-- A `GormEnv` in which every step succeeds. -/
def cleanGormEnv : GormEnv := ⟨fun _ => none⟩

/-- Run one GORM step: log it, then either fail with the wrapped error or
continue. -/
def gormStep (env : GormEnv) (s : GStep) (wrap : String → String)
    (log : List GStep) : Option String × List GStep :=
  match env.stepErr s with
  | some e => (some (wrap e), log ++ [s])
  | none => (none, log ++ [s])

/-- Model of `addCustomConstraints` (Go lines 347–410): the two guarded check
constraints, the `updated_at` trigger function, then one drop-and-create
trigger per table in `["users", "files", "folders"]`. -/
def addCustomConstraints (env : GormEnv) (log : List GStep) :
    Option String × List GStep :=
  match gormStep env (.doGuardedAddConstraint "users_email_format_check" "users")
      (fun e => "failed to add email format constraint: " ++ e) log with
  | (some e, log1) => (some e, log1)
  | (none, log1) =>
    match gormStep env (.doGuardedAddConstraint "folders_no_self_parent_check" "folders")
        (fun e => "failed to add no self-parent constraint: " ++ e) log1 with
    | (some e, log2) => (some e, log2)
    | (none, log2) =>
      match gormStep env (.createOrReplaceFunction "update_updated_at_column")
          (fun e => "failed to create update_updated_at_column function: " ++ e) log2 with
      | (some e, log3) => (some e, log3)
      | (none, log3) =>
        match gormStep env (.dropTriggerIfExistsThenCreate "update_users_updated_at" "users")
            (fun e => "failed to create trigger for users: " ++ e) log3 with
        | (some e, log4) => (some e, log4)
        | (none, log4) =>
          match gormStep env
              (.dropTriggerIfExistsThenCreate "update_files_updated_at" "files")
              (fun e => "failed to create trigger for files: " ++ e) log4 with
          | (some e, log5) => (some e, log5)
          | (none, log5) =>
            gormStep env
              (.dropTriggerIfExistsThenCreate "update_folders_updated_at" "folders")
              (fun e => "failed to create trigger for folders: " ++ e) log5

/-- Model of `AutoMigrate` (Go lines 315–344): the two extensions, GORM
model auto-migration, then the custom constraints. -/
def AutoMigrate (env : GormEnv) : Option String × List GStep :=
  match gormStep env (.createExtensionIfNotExists "uuid-ossp")
      (fun e => "failed to create uuid-ossp extension: " ++ e) [] with
  | (some e, log1) => (some e, log1)
  | (none, log1) =>
    match gormStep env (.createExtensionIfNotExists "pgcrypto")
        (fun e => "failed to create pgcrypto extension: " ++ e) log1 with
    | (some e, log2) => (some e, log2)
    | (none, log2) =>
      match gormStep env (.gormAutoMigrateModels ["User", "Folder", "File"])
          (fun e => "failed to auto-migrate models: " ++ e) log2 with
      | (some e, log3) => (some e, log3)
      | (none, log3) =>
        match addCustomConstraints env log3 with
        | (some e, log4) => (some ("failed to add custom constraints: " ++ e), log4)
        | (none, log4) => (none, log4)

/-- Model of the `migrate` action of `cmd/migrate/main.go` (lines 44–50): it
calls `database.AutoMigrate(conn.DB)` and nothing else. -/
def migrateAction (env : GormEnv) : Option String × List GStep := AutoMigrate env

/-- Modelled from the spec: specification §4.5 describes the migrate
action as "ensure required database extensions exist, run the Migrator over
the declared migration set, then apply any declarative schema
constraints/triggers that are outside the versioned-migration list".  The
requirement under scrutiny — the middle step — is that a (fully successful)
migrate action includes a run of the versioned `Migrator`; it is formalised
as membership of `GStep.runVersionedMigrator` in the step sequence of the
migrate action under a failure-free environment. -/
def migrateSpecRunsVersionedMigrator : Prop :=
  GStep.runVersionedMigrator ∈ (migrateAction cleanGormEnv).2

/-! ### GORM role provisioning (`CreateServiceRoles`, Go lines 413–447)

Each role is created by one guarded `DO $$ ... IF NOT EXISTS ... CREATE ROLE
... $$` statement; `grantPermissions` (lines 450–476) then issues three
grouped `GRANT` statements.  The `PgState` model is shared with the
access-control manager.
-/

/-- The guarded role-creation statement issued by `CreateServiceRoles`
(whitespace normalised; the Go source interpolates the same three values). -/
def doCreateRoleQuery (name password : String) : String :=
  "DO $$ BEGIN IF NOT EXISTS (SELECT FROM pg_roles WHERE rolname = \x27" ++ name ++
  "\x27) THEN CREATE ROLE " ++ name ++ " WITH LOGIN PASSWORD \x27" ++ password ++
  "\x27; END IF; END $$;"

/-- One iteration of the role loop of `CreateServiceRoles`: issue the guarded
`DO` block; inside it, the `CREATE ROLE` runs only when the role is absent,
so an existing role (and its password) is left untouched. -/
def doGuardedCreateRole (env : ExecEnv) (st : PgState) (name password : String) :
    Option String × PgState :=
  let query := doCreateRoleQuery name password
  let st' := { st with stmts := st.stmts ++ [query] }
  match env.execErr query with
  | some e => (some ("failed to create role " ++ name ++ ": " ++ e), st')
  | none =>
    if st'.roles.any (fun r => r.name == name) then (none, st')
    else (none, { st' with roles := st'.roles ++ [⟨name, password, true⟩] })

/-- The fixed role list of `CreateServiceRoles`. -/
def serviceRolesList : List (String × String) :=
  [("user_service", "user_service_password"),
   ("file_service", "file_service_password"),
   ("analytics_reader", "analytics_password")]

/-- The three grouped grant statements of `grantPermissions`, each with the
role label used in its error wrap and the grant triples it records
(whitespace normalised). -/
def grantPermissionsStmts :
    List (String × String × List (String × String × String)) :=
  [("GRANT SELECT, INSERT, UPDATE, DELETE ON users TO user_service; " ++
      "GRANT USAGE, SELECT ON ALL SEQUENCES IN SCHEMA public TO user_service;",
    "user_service",
    [("SELECT, INSERT, UPDATE, DELETE", "users", "user_service"),
     ("USAGE, SELECT", "ALL SEQUENCES IN SCHEMA public", "user_service")]),
   ("GRANT SELECT, INSERT, UPDATE, DELETE ON files, folders TO file_service; " ++
      "GRANT SELECT ON users TO file_service; " ++
      "GRANT USAGE, SELECT ON ALL SEQUENCES IN SCHEMA public TO file_service;",
    "file_service",
    [("SELECT, INSERT, UPDATE, DELETE", "files, folders", "file_service"),
     ("SELECT", "users", "file_service"),
     ("USAGE, SELECT", "ALL SEQUENCES IN SCHEMA public", "file_service")]),
   ("GRANT SELECT ON users, files, folders TO analytics_reader;",
    "analytics_reader",
    [("SELECT", "users, files, folders", "analytics_reader")])]

/-- Model of `grantPermissions` (Go lines 450–476). -/
def grantPermissions (env : ExecEnv) :
    List (String × String × List (String × String × String)) →
    PgState → Option String × PgState
  | [], st => (none, st)
  | (query, roleLabel, triples) :: rest, st =>
    let st' := { st with stmts := st.stmts ++ [query] }
    match env.execErr query with
    | some e =>
      (some ("failed to grant permissions to " ++ roleLabel ++ ": " ++ e), st')
    | none => grantPermissions env rest { st' with grants := st'.grants ++ triples }

/-- The role loop of `CreateServiceRoles` (Go lines 425–438). -/
def createRolesLoop (env : ExecEnv) : List (String × String) → PgState →
    Option String × PgState
  | [], st => (none, st)
  | (name, password) :: rest, st =>
    match doGuardedCreateRole env st name password with
    | (some e, st') => (some e, st')
    | (none, st') => createRolesLoop env rest st'

/-- Model of `CreateServiceRoles` (Go lines 413–447): create the three fixed
roles idempotently, then grant permissions. -/
def CreateServiceRoles (env : ExecEnv) (st : PgState) : Option String × PgState :=
  match createRolesLoop env serviceRolesList st with
  | (some e, st') => (some e, st')
  | (none, st') =>
    match grantPermissions env grantPermissionsStmts st' with
    | (some e, st'') => (some ("failed to grant permissions: " ++ e), st'')
    | (none, st'') => (none, st'')

/-! ## Concrete demonstration data

A small migration set used to evaluate the model on closed inputs:
`001` and `003` succeed, the body `"BAD SQL"` of the broken `002` fails,
and `002fix` is the corrected replacement with the same version. -/

def demoM1 : Migration := ⟨"001", "create users", "CREATE TABLE users (id INT)"⟩

def demoM2bad : Migration := ⟨"002", "add phone", "BAD SQL"⟩

def demoM2fix : Migration := ⟨"002", "add phone", "ALTER TABLE users ADD phone TEXT"⟩

def demoM3 : Migration := ⟨"003", "add index", "CREATE INDEX idx ON users (id)"⟩

/-- Environment in which exactly the body `"BAD SQL"` fails. -/
def demoEnvBad : MigEnv :=
  { cleanMigEnv with sqlErr := fun s => if s == "BAD SQL" then some "malformed statement" else none }

/-- An empty database. -/
def demoSt0 : DBState := ⟨[], []⟩

/-- An empty access-control state. -/
def demoPg0 : PgState := ⟨[], [], [], [], []⟩

/-- A two-row ledger, stored out of version order. -/
def demoLedger : List MigrationRecord := [⟨"002", 5, "b"⟩, ⟨"001", 3, "a"⟩]

/-- The database after `001` and `002` succeeded from empty. -/
def demoSt2 : DBState :=
  ⟨[demoM1.SQL, demoM2fix.SQL],
   [⟨"001", 0, "create users"⟩, ⟨"002", 0, "add phone"⟩]⟩

/-- The database after a run from empty that committed only `001`. -/
def demoStAfter1 : DBState := ⟨[demoM1.SQL], [⟨"001", 0, "create users"⟩]⟩

/-- The database after `001`, `002` (fixed) and `003` all succeeded. -/
def demoStAfterAll : DBState :=
  ⟨[demoM1.SQL, demoM2fix.SQL, demoM3.SQL],
   [⟨"001", 0, "create users"⟩, ⟨"002", 0, "add phone"⟩, ⟨"003", 0, "add index"⟩]⟩

/-- A state in which the role `user_service` already exists. -/
def demoPgRole : PgState := ⟨[], [], [⟨"user_service", "pw0", true⟩], [], []⟩

/-- An environment in which exactly the `INSERT` grant on `users` to `svc`
fails. -/
def demoGrantEnv : ExecEnv :=
  ⟨fun s => if s == grantQuery "INSERT" "users" "svc" then some "denied" else none,
   fun _ => none⟩

/-! # Theorems -/

/-! ## Characterisation of `Migrator.applyMigration` -/

namespace Migrator

/-- A successful `applyMigration` appended exactly the schema-change body to
the schema and exactly one ledger row, and the version was not yet in the
ledger (the primary key admitted the insert). -/
theorem applyMigration_ok {env : MigEnv} {mig : Migration} {st st' : DBState}
    (h : applyMigration env mig st = (none, st')) :
    st'.schema = st.schema ++ [mig.SQL] ∧
    st'.ledger = st.ledger ++ [appliedRecord env mig] ∧
    mig.Version ∉ st.ledgerVersions := by
  cases hbe : (env.txEnv mig.Version).beginErr with
  | some e =>
    simp [applyMigration, Connection.WithTransaction, hbe] at h
  | none =>
    cases hsql : env.sqlErr mig.SQL with
    | some e =>
      cases hrb : (env.txEnv mig.Version).rollbackErr <;>
        simp [applyMigration, Connection.WithTransaction, migrationFn, hbe, hsql, hrb] at h
    | none =>
      by_cases hm : mig.Version ∈ st.ledgerVersions
      · cases hrb : (env.txEnv mig.Version).rollbackErr <;>
          simp [applyMigration, Connection.WithTransaction, migrationFn,
            hbe, hsql, hrb, hm] at h
      · cases hins : env.insErr mig.Version with
        | some e =>
          cases hrb : (env.txEnv mig.Version).rollbackErr <;>
            simp [applyMigration, Connection.WithTransaction, migrationFn,
              hbe, hsql, hrb, hm, hins] at h
        | none =>
          cases hcm : (env.txEnv mig.Version).commitErr with
          | some e =>
            simp [applyMigration, Connection.WithTransaction, migrationFn,
              hbe, hsql, hm, hins, hcm] at h
          | none =>
            simp [applyMigration, Connection.WithTransaction, migrationFn,
              hbe, hsql, hm, hins, hcm] at h
            subst h
            exact ⟨rfl, rfl, hm⟩

/-- A failed `applyMigration` left the database state unchanged. -/
theorem applyMigration_err {env : MigEnv} {mig : Migration} {st st' : DBState}
    {e : String} (h : applyMigration env mig st = (some e, st')) : st' = st := by
  cases hbe : (env.txEnv mig.Version).beginErr with
  | some e2 =>
    simp [applyMigration, Connection.WithTransaction, hbe] at h
    exact h.2.symm
  | none =>
    cases hsql : env.sqlErr mig.SQL with
    | some e2 =>
      cases hrb : (env.txEnv mig.Version).rollbackErr <;>
        simp [applyMigration, Connection.WithTransaction, migrationFn, hbe, hsql, hrb] at h <;>
        exact h.2.symm
    | none =>
      by_cases hm : mig.Version ∈ st.ledgerVersions
      · cases hrb : (env.txEnv mig.Version).rollbackErr <;>
          simp [applyMigration, Connection.WithTransaction, migrationFn,
            hbe, hsql, hrb, hm] at h <;>
          exact h.2.symm
      · cases hins : env.insErr mig.Version with
        | some e2 =>
          cases hrb : (env.txEnv mig.Version).rollbackErr <;>
            simp [applyMigration, Connection.WithTransaction, migrationFn,
              hbe, hsql, hrb, hm, hins] at h <;>
            exact h.2.symm
        | none =>
          cases hcm : (env.txEnv mig.Version).commitErr with
          | some e2 =>
            simp [applyMigration, Connection.WithTransaction, migrationFn,
              hbe, hsql, hm, hins, hcm] at h
            exact h.2.symm
          | none =>
            simp [applyMigration, Connection.WithTransaction, migrationFn,
              hbe, hsql, hm, hins, hcm] at h

/-- If the body or the ledger insert of `mig` is doomed by the environment,
`applyMigration` returns an error and the unchanged state. -/
theorem applyMigration_fails {env : MigEnv} (mig : Migration) (st : DBState)
    (hf : migFails env mig) :
    (applyMigration env mig st).1.isSome = true ∧ (applyMigration env mig st).2 = st := by
  cases hbe : (env.txEnv mig.Version).beginErr with
  | some e2 =>
    simp [applyMigration, Connection.WithTransaction, hbe]
  | none =>
    cases hsql : env.sqlErr mig.SQL with
    | some e2 =>
      cases hrb : (env.txEnv mig.Version).rollbackErr <;>
        simp [applyMigration, Connection.WithTransaction, migrationFn, hbe, hsql, hrb]
    | none =>
      by_cases hm : mig.Version ∈ st.ledgerVersions
      · cases hrb : (env.txEnv mig.Version).rollbackErr <;>
          simp [applyMigration, Connection.WithTransaction, migrationFn,
            hbe, hsql, hrb, hm]
      · cases hins : env.insErr mig.Version with
        | some e2 =>
          cases hrb : (env.txEnv mig.Version).rollbackErr <;>
            simp [applyMigration, Connection.WithTransaction, migrationFn,
              hbe, hsql, hrb, hm, hins]
        | none =>
          rcases hf with hf | hf <;> simp [hsql, hins] at hf

/-- If the environment lets `mig` through and its version is absent from the
ledger, `applyMigration` succeeds with exactly the expected state. -/
theorem applyMigration_of_migOk {env : MigEnv} {mig : Migration} (st : DBState)
    (hok : migOk env mig) (hnotin : mig.Version ∉ st.ledgerVersions) :
    applyMigration env mig st =
      (none, { schema := st.schema ++ [mig.SQL],
               ledger := st.ledger ++ [appliedRecord env mig] }) := by
  obtain ⟨hsql, hins, hbe, hcm⟩ := hok
  simp [applyMigration, Connection.WithTransaction, migrationFn,
    hbe, hsql, hins, hcm, hnotin, appliedRecord]

end Migrator

/-! ## Behaviour of the `Migrator.Apply` loop -/

namespace Migrator

/-- Versions present in the ledger stay present across `applyLoop`. -/
theorem applyLoop_ledger_mono {env : MigEnv} {av : List String} :
    ∀ (rem : List Migration) (st : DBState) {v : String},
      v ∈ st.ledgerVersions → v ∈ (applyLoop env av rem st).2.1.ledgerVersions
  | [], _, _, hv => hv
  | mig :: rest, st, v, hv => by
    simp only [applyLoop]
    by_cases hc : av.contains mig.Version = true
    · rw [if_pos hc]
      exact applyLoop_ledger_mono rest st hv
    · rw [if_neg hc]
      cases hres : applyMigration env mig st with
      | mk o st1 =>
        cases o with
        | none =>
          obtain ⟨_, hled, _⟩ := applyMigration_ok hres
          refine applyLoop_ledger_mono rest st1 ?_
          simp only [DBState.ledgerVersions, hled, List.map_append, List.mem_append]
          exact Or.inl hv
        | some e =>
          have hst : st1 = st := applyMigration_err hres
          simpa [hst] using hv

/-- Every version in the log of an `applyLoop` run is the version of a
migration from the remaining list, and was absent from the ledger at the
start of the run. -/
theorem applyLoop_log_mem {env : MigEnv} {av : List String} :
    ∀ (rem : List Migration) (st : DBState) {v : String},
      v ∈ (applyLoop env av rem st).2.2 →
      (∃ m ∈ rem, v = m.Version) ∧ v ∉ st.ledgerVersions
  | [], st, v, hv => by simp [applyLoop] at hv
  | mig :: rest, st, v, hv => by
    simp only [applyLoop] at hv
    by_cases hc : av.contains mig.Version = true
    · rw [if_pos hc] at hv
      obtain ⟨⟨m, hm, hvm⟩, hnin⟩ := applyLoop_log_mem rest st hv
      exact ⟨⟨m, List.mem_cons_of_mem _ hm, hvm⟩, hnin⟩
    · rw [if_neg hc] at hv
      cases hres : applyMigration env mig st with
      | mk o st1 =>
        rw [hres] at hv
        cases o with
        | none =>
          simp only [List.mem_cons] at hv
          rcases hv with hv | hv
          · subst hv
            obtain ⟨_, _, hnin⟩ := applyMigration_ok hres
            exact ⟨⟨mig, List.mem_cons_self _ _, rfl⟩, hnin⟩
          · obtain ⟨⟨m, hm, hvm⟩, hnin⟩ := applyLoop_log_mem rest st1 hv
            obtain ⟨_, hled, _⟩ := applyMigration_ok hres
            refine ⟨⟨m, List.mem_cons_of_mem _ hm, hvm⟩, fun hmem => hnin ?_⟩
            simp only [DBState.ledgerVersions, hled, List.map_append, List.mem_append]
            exact Or.inl hmem
        | some e =>
          simp at hv

/-- The log of versions applied by `applyLoop` over a list sorted by
`migLe` is strictly ascending. -/
theorem applyLoop_sorted {env : MigEnv} {av : List String} :
    ∀ (rem : List Migration) (st : DBState), List.Pairwise migLe rem →
      List.Pairwise verLt (applyLoop env av rem st).2.2
  | [], _, _ => by simp [applyLoop]
  | mig :: rest, st, hp => by
    simp only [applyLoop]
    by_cases hc : av.contains mig.Version = true
    · rw [if_pos hc]
      exact applyLoop_sorted rest st hp.of_cons
    · rw [if_neg hc]
      cases hres : applyMigration env mig st with
      | mk o st1 =>
        cases o with
        | none =>
          refine List.Pairwise.cons ?_ (applyLoop_sorted rest st1 hp.of_cons)
          intro w hw
          obtain ⟨⟨m, hm, hwm⟩, hnin⟩ := applyLoop_log_mem rest st1 hw
          obtain ⟨_, hled, _⟩ := applyMigration_ok hres
          refine ⟨hwm ▸ List.rel_of_pairwise_cons hp hm, fun hvw => hnin ?_⟩
          simp only [DBState.ledgerVersions, hled, List.map_append, List.mem_append]
          right
          simp [appliedRecord, ← hvw]
        | some e =>
          simp

/-- If every remaining migration is already in the applied set, `applyLoop`
does nothing. -/
theorem applyLoop_all_skip {env : MigEnv} {av : List String} :
    ∀ (rem : List Migration) (st : DBState), (∀ m ∈ rem, m.Version ∈ av) →
      applyLoop env av rem st = (none, st, [])
  | [], _, _ => rfl
  | mig :: rest, st, hall => by
    have hc : av.contains mig.Version = true := by
      simp [hall mig (List.mem_cons_self _ _)]
    simp only [applyLoop, if_pos hc]
    exact applyLoop_all_skip rest st (fun m hm => hall m (List.mem_cons_of_mem _ hm))

/-- After a run of `applyLoop` that returned no error, every remaining
the version of the migration is either in the applied snapshot or in the final
ledger. -/
theorem applyLoop_success_mem {env : MigEnv} {av : List String} :
    ∀ (rem : List Migration) (st : DBState),
      (applyLoop env av rem st).1 = none → ∀ m ∈ rem,
      m.Version ∈ av ∨ m.Version ∈ (applyLoop env av rem st).2.1.ledgerVersions
  | [], _, _, m, hm => by simp at hm
  | mig :: rest, st, hnone, m, hm => by
    simp only [applyLoop] at hnone ⊢
    by_cases hc : av.contains mig.Version = true
    · rw [if_pos hc] at hnone ⊢
      rcases List.mem_cons.mp hm with hm1 | hm1
      · subst hm1
        exact Or.inl (by simpa using hc)
      · exact applyLoop_success_mem rest st hnone m hm1
    · rw [if_neg hc] at hnone ⊢
      cases hres : applyMigration env mig st with
      | mk o st1 =>
        rw [hres] at hnone
        cases o with
        | none =>
          rcases List.mem_cons.mp hm with hm1 | hm1
          · subst hm1
            obtain ⟨_, hled, _⟩ := applyMigration_ok hres
            refine Or.inr (applyLoop_ledger_mono rest st1 ?_)
            simp [DBState.ledgerVersions, hled, appliedRecord]
          · exact applyLoop_success_mem rest st1 hnone m hm1
        | some e =>
          simp at hnone

end Migrator

namespace Migrator

/-- If every pending migration in `rem` goes through, `applyLoop` succeeds,
appends exactly the pending bodies to the schema and the pending rows to the
ledger, in sorted order, and logs exactly the pending versions. -/
theorem applyLoop_all_ok {env : MigEnv} {av : List String} :
    ∀ (rem : List Migration) (st : DBState),
      (∀ m ∈ rem, av.contains m.Version = false → migOk env m) →
      ((rem.filter (fun m => !av.contains m.Version)).map (·.Version)).Nodup →
      (∀ m ∈ rem, av.contains m.Version = false → m.Version ∉ st.ledgerVersions) →
      applyLoop env av rem st =
        (none,
         { schema := st.schema ++
             (rem.filter (fun m => !av.contains m.Version)).map (·.SQL),
           ledger := st.ledger ++
             (rem.filter (fun m => !av.contains m.Version)).map (appliedRecord env) },
         (rem.filter (fun m => !av.contains m.Version)).map (·.Version))
  | [], st, _, _, _ => by simp [applyLoop]
  | mig :: rest, st, hok, hnd, hdisj => by
    by_cases hc : av.contains mig.Version = true
    · have hfil : (mig :: rest).filter (fun m => !av.contains m.Version) =
          rest.filter (fun m => !av.contains m.Version) := by
        rw [List.filter_cons, hc]; simp
      rw [hfil] at hnd ⊢
      simp only [applyLoop, if_pos hc]
      exact applyLoop_all_ok rest st
        (fun m hm => hok m (List.mem_cons_of_mem _ hm))
        hnd
        (fun m hm => hdisj m (List.mem_cons_of_mem _ hm))
    · have hcf : av.contains mig.Version = false := by
        revert hc; cases av.contains mig.Version <;> simp
      have hfil : (mig :: rest).filter (fun m => !av.contains m.Version) =
          mig :: rest.filter (fun m => !av.contains m.Version) := by
        rw [List.filter_cons, hcf]; simp
      rw [hfil] at hnd ⊢
      have hokm := hok mig (List.mem_cons_self _ _) hcf
      have hnin := hdisj mig (List.mem_cons_self _ _) hcf
      have happ := applyMigration_of_migOk st hokm hnin
      have hnd' := hnd
      simp only [List.map_cons, List.nodup_cons] at hnd'
      have ih := applyLoop_all_ok rest
        { schema := st.schema ++ [mig.SQL], ledger := st.ledger ++ [appliedRecord env mig] }
        (fun m hm => hok m (List.mem_cons_of_mem _ hm))
        hnd'.2
        (fun m hm hmc => by
          simp only [DBState.ledgerVersions, List.map_append, List.mem_append]
          rintro (hmem | hmem)
          · exact hdisj m (List.mem_cons_of_mem _ hm) hmc hmem
          · simp only [appliedRecord, List.map_cons, List.map_nil, List.mem_singleton] at hmem
            exact hnd'.1 (hmem ▸ List.mem_map_of_mem (·.Version)
              (List.mem_filter.mpr ⟨hm, by simpa using hmc⟩)))
      simp only [applyLoop, if_neg hc, happ, ih]
      simp

/-- If the sorted pending list splits as `pre ++ f :: post` with every
migration of `pre` going through and `f` doomed, `applyLoop` commits exactly
the migrations of `pre`, then stops with an error naming the version of `f`. -/
theorem applyLoop_fails {env : MigEnv} {av : List String} :
    ∀ (rem : List Migration) (pre : List Migration) {f : Migration}
      {post : List Migration} (st : DBState),
      rem.filter (fun m => !av.contains m.Version) = pre ++ f :: post →
      (∀ m ∈ pre, migOk env m) →
      migFails env f →
      ((rem.filter (fun m => !av.contains m.Version)).map (·.Version)).Nodup →
      (∀ m ∈ rem, av.contains m.Version = false → m.Version ∉ st.ledgerVersions) →
      ∃ inner, applyLoop env av rem st =
        (some ("failed to apply migration " ++ f.Version ++ ": " ++ inner),
         { schema := st.schema ++ pre.map (·.SQL),
           ledger := st.ledger ++ pre.map (appliedRecord env) },
         pre.map (·.Version))
  | [], pre, f, post, st, hsplit, _, _, _, _ => by
    simp [List.filter_nil] at hsplit
  | mig :: rest, pre, f, post, st, hsplit, hpre, hf, hnd, hdisj => by
    by_cases hc : av.contains mig.Version = true
    · have hfil : (mig :: rest).filter (fun m => !av.contains m.Version) =
          rest.filter (fun m => !av.contains m.Version) := by
        rw [List.filter_cons, hc]; simp
      rw [hfil] at hsplit hnd
      simp only [applyLoop, if_pos hc]
      exact applyLoop_fails rest pre st hsplit hpre hf hnd
        (fun m hm => hdisj m (List.mem_cons_of_mem _ hm))
    · have hcf : av.contains mig.Version = false := by
        revert hc; cases av.contains mig.Version <;> simp
      have hfil : (mig :: rest).filter (fun m => !av.contains m.Version) =
          mig :: rest.filter (fun m => !av.contains m.Version) := by
        rw [List.filter_cons, hcf]; simp
      rw [hfil] at hsplit hnd
      cases pre with
      | nil =>
        simp only [List.nil_append] at hsplit
        obtain ⟨hmf, _⟩ := List.cons.inj hsplit
        subst hmf
        obtain ⟨hsome, hstate⟩ := applyMigration_fails mig st hf
        cases hres : applyMigration env mig st with
        | mk o st1 =>
          rw [hres] at hsome hstate
          cases o with
          | none => simp at hsome
          | some e =>
            simp only at hstate
            subst hstate
            exact ⟨e, by simp only [applyLoop, if_neg hc, hres]; simp⟩
      | cons p pre' =>
        simp only [List.cons_append] at hsplit
        obtain ⟨hmp, hsplit'⟩ := List.cons.inj hsplit
        subst hmp
        have hokm := hpre mig (List.mem_cons_self _ _)
        have hnin := hdisj mig (List.mem_cons_self _ _) hcf
        have happ := applyMigration_of_migOk st hokm hnin
        have hnd' := hnd
        simp only [List.map_cons, List.nodup_cons] at hnd'
        obtain ⟨inner, ih⟩ := applyLoop_fails rest pre'
          { schema := st.schema ++ [mig.SQL], ledger := st.ledger ++ [appliedRecord env mig] }
          hsplit'
          (fun m hm => hpre m (List.mem_cons_of_mem _ hm))
          hf
          hnd'.2
          (fun m hm hmc => by
            simp only [DBState.ledgerVersions, List.map_append, List.mem_append]
            rintro (hmem | hmem)
            · exact hdisj m (List.mem_cons_of_mem _ hm) hmc hmem
            · simp only [appliedRecord, List.map_cons, List.map_nil,
                List.mem_singleton] at hmem
              exact hnd'.1 (hmem ▸ List.mem_map_of_mem (·.Version)
                (List.mem_filter.mpr ⟨hm, by simpa using hmc⟩)))
        refine ⟨inner, ?_⟩
        simp only [applyLoop, if_neg hc, happ, ih]
        simp

end Migrator

/-! ## Sorting and applied-set helpers -/

theorem sortMigrations_perm (l : List Migration) : (sortMigrations l).Perm l :=
  List.perm_insertionSort migLe l

theorem sortMigrations_sorted (l : List Migration) :
    List.Pairwise migLe (sortMigrations l) :=
  List.sorted_insertionSort migLe l

theorem sortRecords_perm (l : List MigrationRecord) : (sortRecords l).Perm l :=
  List.perm_insertionSort recLe l

/-- Membership in the version list is invariant under `sortRecords`. -/
theorem mem_sortRecords_versions {l : List MigrationRecord} {v : String} :
    v ∈ (sortRecords l).map (·.Version) ↔ v ∈ l.map (·.Version) :=
  ((sortRecords_perm l).map (·.Version)).mem_iff

namespace Migrator

/-- Every record returned by a non-erroring `GetAppliedMigrations` is a real
row of `schema_migrations`. -/
theorem getApplied_subset {renv : RowsEnv} {ledger : List MigrationRecord}
    {l : List MigrationRecord} (h : GetAppliedMigrations renv ledger = .ok l) :
    ∀ r ∈ l, r ∈ ledger := by
  intro r hr
  cases renv with
  | ok =>
    simp only [GetAppliedMigrations, Except.ok.injEq] at h
    exact (sortRecords_perm ledger).subset (h ▸ hr)
  | queryErr e => simp [GetAppliedMigrations] at h
  | scanErr i e =>
    by_cases hi : i < (sortRecords ledger).length
    · simp [GetAppliedMigrations, hi] at h
    · simp only [GetAppliedMigrations, if_neg hi, Except.ok.injEq] at h
      exact (sortRecords_perm ledger).subset (h ▸ hr)
  | iterErr i e =>
    simp only [GetAppliedMigrations, Except.ok.injEq] at h
    exact (sortRecords_perm ledger).subset (List.mem_of_mem_take (h ▸ hr))

/-- With an accurate applied-set snapshot and no table-creation failure,
`Apply` is the loop over the sorted list with the full version snapshot. -/
theorem Apply_ok_eq {env : MigEnv} (migs : List Migration) (st : DBState)
    (hens : env.ensureErr = none) :
    Apply env .ok migs st =
      applyLoop env ((sortRecords st.ledger).map (·.Version)) (sortMigrations migs) st := by
  simp [Apply, hens, GetAppliedMigrations]

/-- For the accurate snapshot, a version is filtered out of the pending list
exactly when it is in the ledger. -/
theorem snapshot_contains_iff {st : DBState} {v : String} :
    ((sortRecords st.ledger).map (·.Version)).contains v = true ↔
      v ∈ st.ledgerVersions := by
  rw [List.contains_iff_exists_mem_beq]
  constructor
  · rintro ⟨w, hw, hbeq⟩
    have : v = w := by simpa using hbeq
    subst this
    exact mem_sortRecords_versions.mp hw
  · intro hv
    exact ⟨v, mem_sortRecords_versions.mpr hv, by simp⟩

end Migrator

/-! ## Claim C5: the `WithTransaction` contract -/

/-- C5: for every invocation of `Connection.WithTransaction(fn)` whose
transaction acquisition succeeds: if `fn` returns nil the transaction is
committed (and, when the commit succeeds, the state from `fn` is published and nil
is returned); if `fn` returns an error the transaction is rolled back and
the error from `fn` is returned unchanged, except that a failing rollback produces
an error reporting both the original cause and the rollback cause; if `fn`
panics the transaction is rolled back before the panic propagates; in every
case exactly one of commit or rollback is issued. -/
theorem C5_withTransaction_contract (env : TxEnv) (st : DBState)
    (fn : DBState → FnOut) (hb : env.beginErr = none) :
    (∀ st', fn st = .ok st' →
      (Connection.WithTransaction env st fn).2 = [TxAction.committed] ∧
      (env.commitErr = none →
        (Connection.WithTransaction env st fn).1 = .ret none st')) ∧
    (∀ e, fn st = .err e →
      (Connection.WithTransaction env st fn).2 = [TxAction.rolledBack] ∧
      (env.rollbackErr = none →
        (Connection.WithTransaction env st fn).1 = .ret (some e) st) ∧
      (∀ rb, env.rollbackErr = some rb →
        (Connection.WithTransaction env st fn).1 =
          .ret (some ("transaction error: " ++ e ++ ", rollback error: " ++ rb)) st)) ∧
    (∀ p, fn st = .panic p →
      (Connection.WithTransaction env st fn).1 = .panicked p st ∧
      (Connection.WithTransaction env st fn).2 = [TxAction.rolledBack]) ∧
    (Connection.WithTransaction env st fn).2.length = 1 := by
  refine ⟨?_, ?_, ?_, ?_⟩
  · intro st' hfn
    constructor
    · cases hcm : env.commitErr <;> simp [Connection.WithTransaction, hb, hfn, hcm]
    · intro hcm
      simp [Connection.WithTransaction, hb, hfn, hcm]
  · intro e hfn
    refine ⟨?_, ?_, ?_⟩
    · cases hrb : env.rollbackErr <;> simp [Connection.WithTransaction, hb, hfn, hrb]
    · intro hrb
      simp [Connection.WithTransaction, hb, hfn, hrb]
    · intro rb hrb
      simp [Connection.WithTransaction, hb, hfn, hrb]
  · intro p hfn
    exact ⟨by simp [Connection.WithTransaction, hb, hfn],
      by simp [Connection.WithTransaction, hb, hfn]⟩
  · cases hfn : fn st with
    | ok st' => cases hcm : env.commitErr <;>
        simp [Connection.WithTransaction, hb, hfn, hcm]
    | err e => cases hrb : env.rollbackErr <;>
        simp [Connection.WithTransaction, hb, hfn, hrb]
    | panic p => simp [Connection.WithTransaction, hb, hfn]

/-- Witness for C5: a body that fails with `"boom"` under a clean
environment is rolled back and its error surfaces unchanged. -/
theorem C5_witness :
    cleanTxEnv.beginErr = none ∧
    (Connection.WithTransaction cleanTxEnv demoSt0 (fun _ => FnOut.err "boom")).1 =
      .ret (some "boom") demoSt0 :=
  ⟨rfl,
   ((C5_withTransaction_contract cleanTxEnv demoSt0 (fun _ => FnOut.err "boom")
      rfl).2.1 "boom" rfl).2.1 rfl⟩

/-! ## Claim C1: atomicity of one migration -/

/-- C1: the function `Migrator.applyMigration` runs the schema-change body and the
ledger insert in one transaction: either it succeeds and exactly both the
body and the `schema_migrations` row persist, or it fails and the database
state is unchanged — in particular, when the body is doomed, the call errs
and no ledger row for the version appears. -/
theorem C1_applyMigration_atomic (env : MigEnv) (mig : Migration) (st : DBState) :
    ((∃ st', Migrator.applyMigration env mig st = (none, st') ∧
        st'.schema = st.schema ++ [mig.SQL] ∧
        st'.ledger = st.ledger ++ [appliedRecord env mig]) ∨
      (∃ e, Migrator.applyMigration env mig st = (some e, st))) ∧
    ((env.sqlErr mig.SQL).isSome = true →
      (Migrator.applyMigration env mig st).1.isSome = true ∧
      (Migrator.applyMigration env mig st).2 = st) := by
  constructor
  · cases hres : Migrator.applyMigration env mig st with
    | mk o st1 =>
      cases o with
      | none =>
        obtain ⟨hs, hl, _⟩ := Migrator.applyMigration_ok hres
        exact Or.inl ⟨st1, rfl, hs, hl⟩
      | some e =>
        have := Migrator.applyMigration_err hres
        exact Or.inr ⟨e, this ▸ rfl⟩
  · intro hsql
    exact Migrator.applyMigration_fails mig st (Or.inl hsql)

/-- Witness for C1: the broken migration `002` fails against the empty
database and leaves it unchanged. -/
theorem C1_witness :
    (demoEnvBad.sqlErr demoM2bad.SQL).isSome = true ∧
    (Migrator.applyMigration demoEnvBad demoM2bad demoSt0).1.isSome = true ∧
    (Migrator.applyMigration demoEnvBad demoM2bad demoSt0).2 = demoSt0 :=
  ⟨by decide,
   (C1_applyMigration_atomic demoEnvBad demoM2bad demoSt0).2 (by decide)⟩

/-! ## Claim C10: `GetAppliedMigrations` and the truncated row stream -/

/-- C10: the function `Migrator.GetAppliedMigrations` errs only for the initial query
or for an individual row scan; a row stream terminated early by an iteration
error (the code never consults `rows.Err()`) yields the truncated prefix of
the ledger records together with a nil error. -/
theorem C10_getApplied_truncation :
    (∀ (ledger : List MigrationRecord) (i : Nat) (e : String),
      Migrator.GetAppliedMigrations (.iterErr i e) ledger =
        .ok ((sortRecords ledger).take i)) ∧
    (∀ (renv : Migrator.RowsEnv) (ledger : List MigrationRecord) (err : String),
      Migrator.GetAppliedMigrations renv ledger = .error err →
      (∃ q, renv = .queryErr q) ∨ (∃ j s, renv = .scanErr j s)) := by
  constructor
  · intro ledger i e
    rfl
  · intro renv ledger err h
    cases renv with
    | ok => simp [Migrator.GetAppliedMigrations] at h
    | queryErr q => exact Or.inl ⟨q, rfl⟩
    | scanErr j s => exact Or.inr ⟨j, s, rfl⟩
    | iterErr i e => simp [Migrator.GetAppliedMigrations] at h

/-- Witness for C10: an iteration error after one delivered row returns the
one-record prefix of the (version-ordered) two-row ledger, with no error;
and a query error is one of the two surfaced error sources. -/
theorem C10_witness :
    Migrator.GetAppliedMigrations (.iterErr 1 "conn reset") demoLedger =
      .ok [⟨"001", 3, "a"⟩] ∧
    ((∃ q, (Migrator.RowsEnv.queryErr "boom") = .queryErr q) ∨
      (∃ j s, (Migrator.RowsEnv.queryErr "boom") = .scanErr j s)) :=
  ⟨by rw [C10_getApplied_truncation.1 demoLedger 1 "conn reset"]; rfl,
   C10_getApplied_truncation.2 (.queryErr "boom") demoLedger
     "failed to query migrations: boom" rfl⟩

/-! ## Claim C2: strict version ordering of applied migrations -/

/-- C2: for every input collection, in any declaration order, the
versions `Migrator.Apply` applies in one run are strictly ascending in the
lexicographic string order; in particular, versions `001`, `003`, `002`
declared in that order are applied as `001, 002, 003`. -/
theorem C2_apply_ordering (env : MigEnv) (renv : Migrator.RowsEnv)
    (migs : List Migration) (st : DBState) :
    List.Pairwise verLt (Migrator.Apply env renv migs st).2.2 ∧
    (Migrator.Apply cleanMigEnv .ok [demoM1, demoM3, demoM2fix] demoSt0).2.2 =
      ["001", "002", "003"] := by
  constructor
  · cases hens : env.ensureErr with
    | some e => simp [Migrator.Apply, hens]
    | none =>
      cases happ : Migrator.GetAppliedMigrations renv st.ledger with
      | error e => simp [Migrator.Apply, hens, happ]
      | ok applied =>
        simp only [Migrator.Apply, hens, happ]
        exact Migrator.applyLoop_sorted (sortMigrations migs) st
          (sortMigrations_sorted migs)
  · rfl

/-! ## Claim C3: idempotent re-run -/

/-- C3: if a run of `Migrator.Apply` succeeds, a second run over the same
migration set (with an accurate applied-set snapshot and a working ledger
table) skips every migration: it executes no bodies, inserts no ledger rows,
leaves the state unchanged, and applies nothing. -/
theorem C3_apply_idempotent (env env2 : MigEnv) (renv : Migrator.RowsEnv)
    (migs : List Migration) (st st1 : DBState) (log1 : List String)
    (h1 : Migrator.Apply env renv migs st = (none, st1, log1))
    (hens2 : env2.ensureErr = none) :
    Migrator.Apply env2 .ok migs st1 = (none, st1, []) := by
  cases hens : env.ensureErr with
  | some e => simp [Migrator.Apply, hens] at h1
  | none =>
    cases happ : Migrator.GetAppliedMigrations renv st.ledger with
    | error e => simp [Migrator.Apply, hens, happ] at h1
    | ok applied =>
      simp only [Migrator.Apply, hens, happ] at h1
      have hnone : (Migrator.applyLoop env (applied.map (·.Version))
          (sortMigrations migs) st).1 = none := by rw [h1]
      have hst1 : (Migrator.applyLoop env (applied.map (·.Version))
          (sortMigrations migs) st).2.1 = st1 := by rw [h1]
      have hall : ∀ m ∈ sortMigrations migs, m.Version ∈ st1.ledgerVersions := by
        intro m hm
        rcases Migrator.applyLoop_success_mem (sortMigrations migs) st hnone m hm
          with hv | hv
        · have hmem : m.Version ∈ st.ledgerVersions := by
            rcases List.mem_map.mp hv with ⟨r, hr, hrv⟩
            exact hrv ▸ List.mem_map_of_mem (·.Version)
              (Migrator.getApplied_subset happ r hr)
          exact hst1 ▸ Migrator.applyLoop_ledger_mono (sortMigrations migs) st hmem
        · exact hst1 ▸ hv
      rw [Migrator.Apply_ok_eq migs st1 hens2]
      exact Migrator.applyLoop_all_skip (sortMigrations migs) st1
        (fun m hm => mem_sortRecords_versions.mpr (hall m hm))

/-- Witness for C3: applying `{001, 002}` to the empty database succeeds, and
the immediate re-run applies nothing and leaves the state unchanged. -/
theorem C3_witness :
    Migrator.Apply cleanMigEnv .ok [demoM1, demoM2fix] demoSt0 =
      (none, demoSt2, ["001", "002"]) ∧
    Migrator.Apply cleanMigEnv .ok [demoM1, demoM2fix] demoSt2 =
      (none, demoSt2, []) :=
  ⟨rfl,
   C3_apply_idempotent cleanMigEnv cleanMigEnv .ok [demoM1, demoM2fix] demoSt0
     demoSt2 ["001", "002"] rfl rfl⟩

/-! ## Claim C4: stop at the first failure; later runs resume -/

/-- C4: when the pending migrations, in sorted order, are
`pre ++ f :: post` with every migration of `pre` able to go through and `f`
doomed (body or ledger insert), `Migrator.Apply` commits exactly `pre` (whose
effects persist), returns an error naming the version of `f`, and never attempts
`post`; and any later run from the resulting state whose own pending
migrations all go through applies exactly those still-pending migrations, in
order, skipping everything already committed. -/
theorem C4_apply_failfast (env env2 : MigEnv) (migs migs2 : List Migration)
    (st : DBState) (pre : List Migration) (f : Migration) (post : List Migration)
    (hens : env.ensureErr = none)
    (hsplit : Migrator.pendingOf migs st.ledger = pre ++ f :: post)
    (hpre : ∀ m ∈ pre, migOk env m)
    (hf : migFails env f)
    (hnd : ((Migrator.pendingOf migs st.ledger).map (·.Version)).Nodup) :
    (∃ inner, Migrator.Apply env .ok migs st =
      (some ("failed to apply migration " ++ f.Version ++ ": " ++ inner),
       { schema := st.schema ++ pre.map (·.SQL),
         ledger := st.ledger ++ pre.map (appliedRecord env) },
       pre.map (·.Version))) ∧
    (env2.ensureErr = none →
      (∀ m ∈ Migrator.pendingOf migs2
          (st.ledger ++ pre.map (appliedRecord env)), migOk env2 m) →
      ((Migrator.pendingOf migs2
          (st.ledger ++ pre.map (appliedRecord env))).map (·.Version)).Nodup →
      Migrator.Apply env2 .ok migs2
        { schema := st.schema ++ pre.map (·.SQL),
          ledger := st.ledger ++ pre.map (appliedRecord env) } =
        (none,
         { schema := (st.schema ++ pre.map (·.SQL)) ++
             (Migrator.pendingOf migs2
               (st.ledger ++ pre.map (appliedRecord env))).map (·.SQL),
           ledger := (st.ledger ++ pre.map (appliedRecord env)) ++
             (Migrator.pendingOf migs2
               (st.ledger ++ pre.map (appliedRecord env))).map (appliedRecord env2) },
         (Migrator.pendingOf migs2
           (st.ledger ++ pre.map (appliedRecord env))).map (·.Version))) := by
  constructor
  · rw [Migrator.Apply_ok_eq migs st hens]
    refine Migrator.applyLoop_fails (sortMigrations migs) pre st hsplit hpre hf hnd ?_
    intro m _ hc hmem
    have := Migrator.snapshot_contains_iff.mpr hmem
    rw [hc] at this
    cases this
  · intro hens2 hok2 hnd2
    rw [Migrator.Apply_ok_eq migs2 _ hens2]
    refine (Migrator.applyLoop_all_ok (sortMigrations migs2) _ ?_ hnd2 ?_)
    · intro m hm hc
      refine hok2 m (List.mem_filter.mpr ⟨hm, ?_⟩)
      simpa using hc
    · intro m _ hc hmem
      have := Migrator.snapshot_contains_iff.mpr hmem
      rw [hc] at this
      cases this

/-- Witness for C4: from the empty database, `{001, 002(bad), 003}` commits
`001`, fails naming `002`, and the re-run with the corrected set applies
`002` then `003`, skipping `001`. -/
theorem C4_witness :
    (∃ inner, Migrator.Apply demoEnvBad .ok [demoM1, demoM2bad, demoM3] demoSt0 =
      (some ("failed to apply migration " ++ demoM2bad.Version ++ ": " ++ inner),
       demoStAfter1, ["001"])) ∧
    Migrator.Apply cleanMigEnv .ok [demoM1, demoM2fix, demoM3] demoStAfter1 =
      (none, demoStAfterAll, ["002", "003"]) := by
  have h := C4_apply_failfast demoEnvBad cleanMigEnv [demoM1, demoM2bad, demoM3]
    [demoM1, demoM2fix, demoM3] demoSt0 [demoM1] demoM2bad [demoM3]
    rfl (by decide) (by decide) (by decide) (by decide)
  exact ⟨h.1, h.2 rfl (by decide) (by decide)⟩

/-! ## Grant-loop characterisation -/

namespace RLSManager

/-- If every grant statement succeeds, `GrantTablePermissions` issues them in
list order and records every privilege. -/
theorem grantLoop_ok {env : ExecEnv} {tableName roleName : String} :
    ∀ (perms : List String) (st : PgState),
      (∀ q ∈ perms, env.execErr (grantQuery q tableName roleName) = none) →
      GrantTablePermissions env tableName roleName perms st =
        (none, { st with
          stmts := st.stmts ++ perms.map (fun q => grantQuery q tableName roleName),
          grants := st.grants ++ perms.map (fun q => (q, tableName, roleName)) })
  | [], st, _ => by simp [GrantTablePermissions]
  | perm :: rest, st, hall => by
    have hp := hall perm (List.mem_cons_self _ _)
    simp only [GrantTablePermissions, hp]
    rw [grantLoop_ok rest _ (fun q hq => hall q (List.mem_cons_of_mem _ hq))]
    simp

/-- On the first failing grant, `GrantTablePermissions` stops: the error
names the privilege, the table and the role; the earlier grants stay
recorded; the failing statement was issued; nothing after it was. -/
theorem grantLoop_fails {env : ExecEnv} {tableName roleName : String} :
    ∀ (pre : List String) (p : String) (post : List String) (e : String)
      (st : PgState),
      (∀ q ∈ pre, env.execErr (grantQuery q tableName roleName) = none) →
      env.execErr (grantQuery p tableName roleName) = some e →
      GrantTablePermissions env tableName roleName (pre ++ p :: post) st =
        (some ("failed to grant " ++ p ++ " on " ++ tableName ++ " to " ++
          roleName ++ ": " ++ e),
         { st with
           stmts := st.stmts ++ pre.map (fun q => grantQuery q tableName roleName) ++
             [grantQuery p tableName roleName],
           grants := st.grants ++ pre.map (fun q => (q, tableName, roleName)) })
  | [], p, post, e, st, _, hp => by
    simp [GrantTablePermissions, hp]
  | q :: pre', p, post, e, st, hall, hp => by
    have hq := hall q (List.mem_cons_self _ _)
    simp only [List.cons_append, GrantTablePermissions, hq, List.append_eq]
    rw [grantLoop_fails pre' p post e _
      (fun q2 hq2 => hall q2 (List.mem_cons_of_mem _ hq2)) hp]
    simp

end RLSManager

/-! ## Claim C9: ordered grants, fail-fast, incomplete state surfaced -/

/-- C9: the function `GrantTablePermissions` applies the privilege list one `GRANT` at
a time in list order; if all succeed every privilege is recorded in order;
on the first failing grant it stops with an error identifying that
privilege, table and role, the grants issued before it remain applied, the
failing statement was the last one issued, and nothing after it was
attempted. -/
theorem C9_grant_failfast (env : ExecEnv) (st : PgState)
    (tableName roleName : String) :
    (∀ perms, (∀ q ∈ perms, env.execErr (grantQuery q tableName roleName) = none) →
      RLSManager.GrantTablePermissions env tableName roleName perms st =
        (none, { st with
          stmts := st.stmts ++ perms.map (fun q => grantQuery q tableName roleName),
          grants := st.grants ++ perms.map (fun q => (q, tableName, roleName)) })) ∧
    (∀ pre p post e,
      (∀ q ∈ pre, env.execErr (grantQuery q tableName roleName) = none) →
      env.execErr (grantQuery p tableName roleName) = some e →
      RLSManager.GrantTablePermissions env tableName roleName (pre ++ p :: post) st =
        (some ("failed to grant " ++ p ++ " on " ++ tableName ++ " to " ++
          roleName ++ ": " ++ e),
         { st with
           stmts := st.stmts ++ pre.map (fun q => grantQuery q tableName roleName) ++
             [grantQuery p tableName roleName],
           grants := st.grants ++ pre.map (fun q => (q, tableName, roleName)) })) :=
  ⟨fun perms hall => RLSManager.grantLoop_ok perms st hall,
   fun pre p post e hall hp => RLSManager.grantLoop_fails pre p post e st hall hp⟩

/-- Witness for C9: granting `SELECT, INSERT, UPDATE` on `users` to `svc`
with `INSERT` denied applies only `SELECT` and stops naming `INSERT`. -/
theorem C9_witness :
    RLSManager.GrantTablePermissions demoGrantEnv "users" "svc"
      ["SELECT", "INSERT", "UPDATE"] demoPg0 =
      (some "failed to grant INSERT on users to svc: denied",
       { demoPg0 with
         stmts := [grantQuery "SELECT" "users" "svc", grantQuery "INSERT" "users" "svc"],
         grants := [("SELECT", "users", "svc")] }) := by
  have h := (C9_grant_failfast demoGrantEnv demoPg0 "users" "svc").2
    ["SELECT"] "INSERT" ["UPDATE"] "denied" (by decide) (by decide)
  exact h

/-! ## Claim C7: idempotent role creation, no credential rotation -/

/-- C7: with a working existence probe, `CreateServiceRole` returns
success without issuing any statement when the role exists (so the stored
password is untouched); when the role is absent and the create statement
succeeds it adds a login-capable role with the given password; creating the
same role twice never errors and never changes the state the first call
produced; and the guarded orchestrator `DO` block likewise succeeds on an
existing role without touching the role list. -/
theorem C7_role_idempotent (env : ExecEnv) (st : PgState)
    (roleName password : String) (hchk : env.roleCheckErr roleName = none) :
    (st.roles.any (fun r => r.name == roleName) = true →
      RLSManager.CreateServiceRole env st roleName password = (none, st)) ∧
    (st.roles.any (fun r => r.name == roleName) = false →
      env.execErr (createRoleQuery roleName password) = none →
      RLSManager.CreateServiceRole env st roleName password =
        (none, { st with
            stmts := st.stmts ++ [createRoleQuery roleName password],
            roles := st.roles ++ [⟨roleName, password, true⟩] })) ∧
    (∀ st1, RLSManager.CreateServiceRole env st roleName password = (none, st1) →
      RLSManager.CreateServiceRole env st1 roleName password = (none, st1)) ∧
    (∀ password2, st.roles.any (fun r => r.name == roleName) = true →
      env.execErr (doCreateRoleQuery roleName password2) = none →
      (doGuardedCreateRole env st roleName password2).1 = none ∧
      (doGuardedCreateRole env st roleName password2).2.roles = st.roles) := by
  refine ⟨?_, ?_, ?_, ?_⟩
  · intro hany
    simp [RLSManager.CreateServiceRole, hchk, hany]
  · intro hany hex
    simp [RLSManager.CreateServiceRole, hchk, hany, hex]
  · intro st1 h1
    cases hany : st.roles.any (fun r => r.name == roleName) with
    | true =>
      rw [RLSManager.CreateServiceRole] at h1
      rw [hchk] at h1
      rw [if_pos hany] at h1
      obtain ⟨rfl⟩ : st = st1 := by
        simpa using congrArg Prod.snd h1
      simp [RLSManager.CreateServiceRole, hchk, hany]
    | false =>
      cases hex : env.execErr (createRoleQuery roleName password) with
      | some e =>
        simp [RLSManager.CreateServiceRole, hchk, hany, hex] at h1
      | none =>
        simp only [RLSManager.CreateServiceRole, hchk, hany, hex] at h1
        have hst1 : st1 = { st with
            stmts := st.stmts ++ [createRoleQuery roleName password],
            roles := st.roles ++ [⟨roleName, password, true⟩] } := by
          have := congrArg Prod.snd h1
          simpa using this.symm
        subst hst1
        have hany2 : ({ st with
            stmts := st.stmts ++ [createRoleQuery roleName password],
            roles := st.roles ++ [⟨roleName, password, true⟩] } : PgState).roles.any
            (fun r => r.name == roleName) = true := by
          simp
        simp [RLSManager.CreateServiceRole, hchk, hany2]
  · intro password2 hany hex
    constructor <;> simp [doGuardedCreateRole, hex, hany]

/-- Witness for C7: re-creating the existing `user_service` role with a new
password succeeds and changes nothing. -/
theorem C7_witness :
    cleanExecEnv.roleCheckErr "user_service" = none ∧
    demoPgRole.roles.any (fun r => r.name == "user_service") = true ∧
    RLSManager.CreateServiceRole cleanExecEnv demoPgRole "user_service" "newpw" =
      (none, demoPgRole) :=
  ⟨rfl, by decide,
   (C7_role_idempotent cleanExecEnv demoPgRole "user_service" "newpw" rfl).1
     (by decide)⟩

/-! ## Claim C8: `SetupServiceRLS` issues exactly enable-RLS then one policy -/

/-- C8: the function `SetupServiceRLS` first enables row-level security on the table
and then creates exactly one policy for the role named by the service —
command `ALL` with `USING (true)` when `fullAccess`, command `SELECT` with
`USING (true)` otherwise; exactly those two statements are issued; and when
enabling RLS fails, the call errs after that single statement and no policy
is created. -/
theorem C8_setupServiceRLS (env : ExecEnv) (st : PgState)
    (serviceName tableName : String) (fullAccess : Bool) :
    (env.execErr (enableRLSQuery tableName) = none →
      env.execErr (policyQuery (if fullAccess then fullAccessPolicy serviceName tableName
        else readOnlyPolicy serviceName tableName)) = none →
      SetupServiceRLS env st serviceName tableName fullAccess =
        (none,
         { rlsEnabled := st.rlsEnabled ++ [tableName],
           policies := st.policies ++
             [if fullAccess then fullAccessPolicy serviceName tableName
              else readOnlyPolicy serviceName tableName],
           roles := st.roles, grants := st.grants,
           stmts := st.stmts ++ [enableRLSQuery tableName,
             policyQuery (if fullAccess then fullAccessPolicy serviceName tableName
               else readOnlyPolicy serviceName tableName)] })) ∧
    ((if fullAccess then fullAccessPolicy serviceName tableName
        else readOnlyPolicy serviceName tableName).Command =
      (if fullAccess then "ALL" else "SELECT") ∧
     (if fullAccess then fullAccessPolicy serviceName tableName
        else readOnlyPolicy serviceName tableName).Using = "true" ∧
     (if fullAccess then fullAccessPolicy serviceName tableName
        else readOnlyPolicy serviceName tableName).Role = serviceName ∧
     (if fullAccess then fullAccessPolicy serviceName tableName
        else readOnlyPolicy serviceName tableName).Table = tableName) ∧
    (∀ e, env.execErr (enableRLSQuery tableName) = some e →
      SetupServiceRLS env st serviceName tableName fullAccess =
        (some ("failed to enable RLS on " ++ tableName ++ ": " ++ e),
         { st with stmts := st.stmts ++ [enableRLSQuery tableName] })) := by
  refine ⟨?_, ?_, ?_⟩
  · intro hen hcp
    cases fullAccess <;>
      simp_all [SetupServiceRLS, RLSManager.EnableRLS, RLSManager.CreatePolicy]
  · cases fullAccess <;> simp [fullAccessPolicy, readOnlyPolicy]
  · intro e hen
    cases fullAccess <;>
      simp [SetupServiceRLS, RLSManager.EnableRLS, hen]

/-- Witness for C8: read-only setup for service `reader` on `users` issues
the enable-RLS statement then the single `SELECT` policy. -/
theorem C8_witness :
    SetupServiceRLS cleanExecEnv demoPg0 "reader" "users" false =
      (none,
       { rlsEnabled := ["users"],
         policies := [readOnlyPolicy "reader" "users"],
         roles := [], grants := [],
         stmts := [enableRLSQuery "users",
           policyQuery (readOnlyPolicy "reader" "users")] }) :=
  (C8_setupServiceRLS cleanExecEnv demoPg0 "reader" "users" false).1 rfl rfl

/-! ## Claim C6: what the migrate action actually runs -/

/-- C6 counterexample: the claim (and spec §4.5) says the migrate action
runs the versioned Migrator over the declared migration set; in the code the
action is exactly one `AutoMigrate` call, whose step sequence never includes
a versioned-Migrator run — `migrateSpecRunsVersionedMigrator` is false. -/
theorem C6_counterexample : ¬ migrateSpecRunsVersionedMigrator := by
  show GStep.runVersionedMigrator ∉ (migrateAction cleanGormEnv).2
  decide

/-- C6 as amended: the migrate action performs exactly this sequence:
ensure the `uuid-ossp` and `pgcrypto` extensions exist (guarded by
`IF NOT EXISTS`), run the GORM structural auto-migration over the declared
domain models `User`, `Folder`, `File` — not the versioned Migrator — then
apply the two `IF NOT EXISTS`-guarded check constraints, install the
`updated_at` trigger function via `CREATE OR REPLACE`, and re-create the
three `updated_at` triggers via `DROP TRIGGER IF EXISTS` + `CREATE TRIGGER`,
so every declarative step is re-appliable. -/
theorem C6_migrate_sequence :
    migrateAction cleanGormEnv =
      (none,
       [.createExtensionIfNotExists "uuid-ossp",
        .createExtensionIfNotExists "pgcrypto",
        .gormAutoMigrateModels ["User", "Folder", "File"],
        .doGuardedAddConstraint "users_email_format_check" "users",
        .doGuardedAddConstraint "folders_no_self_parent_check" "folders",
        .createOrReplaceFunction "update_updated_at_column",
        .dropTriggerIfExistsThenCreate "update_users_updated_at" "users",
        .dropTriggerIfExistsThenCreate "update_files_updated_at" "files",
        .dropTriggerIfExistsThenCreate "update_folders_updated_at" "folders"]) ∧
    GStep.runVersionedMigrator ∉ (migrateAction cleanGormEnv).2 := by
  exact ⟨rfl, by decide⟩
